import Mathlib

/-!
Verification development for the lightway proxy pipeline.

Rust code is shallowly embedded: machine integers become `Nat` (all byte
values constructed here are below 256 by construction of the sources),
strings become `List Char` (`RStr`), fallible or panicking code returns
`Option` or `Except`, and calls into external crates (the `regex` crate,
the standard-library `IpAddr` parser and formatter, the async socket
reader) are passed in as explicit function arguments together with the
laws those libraries document.
-/

namespace Lightway

/-- Rust `&str` values are embedded as lists of characters. -/
abbrev RStr := List Char

/-- Model of `str::starts_with` for string patterns. -/
def rstrStartsWith : RStr → RStr → Bool
  | _, [] => true
  | [], _ :: _ => false
  | c :: cs, p :: ps => c == p && rstrStartsWith cs ps

/-- Model of `str::ends_with` for string patterns. -/
def rstrEndsWith (s p : RStr) : Bool :=
  rstrStartsWith s.reverse p.reverse

/-- Model of `str::contains` for string patterns: some suffix of `s`
starts with `p`. -/
def rstrContains : RStr → RStr → Bool
  | [], p => p.isEmpty
  | c :: cs, p => rstrStartsWith (c :: cs) p || rstrContains cs p

/-- ASCII lowercase of a character code, as used by
`eq_ignore_ascii_case`. -/
def lowerCode (n : Nat) : Nat :=
  if 65 ≤ n ∧ n ≤ 90 then n + 32 else n

/-- Model of `str::eq_ignore_ascii_case`. -/
def rstrEqIgnoreAsciiCase : RStr → RStr → Bool
  | [], [] => true
  | [], _ :: _ => false
  | _ :: _, [] => false
  | a :: as, b :: bs =>
      lowerCode a.toNat == lowerCode b.toNat && rstrEqIgnoreAsciiCase as bs

/-- Split a string at every occurrence of the character `sep`, as
`str::split` does: `n` separators yield `n + 1` pieces. -/
def splitOnChar (sep : Char) : RStr → List RStr
  | [] => [[]]
  | c :: cs =>
      let rest := splitOnChar sep cs
      if c == sep then
        [] :: rest
      else
        match rest with
        | [] => [[c]]
        | r :: rs => (c :: r) :: rs

/-- Model of `char::is_whitespace` restricted to the ASCII whitespace
that actually occurs on these wire formats. -/
def isWs (c : Char) : Bool :=
  c == ' ' || c == '\t' || c == '\r' || c == '\n'

/-- Model of `str::trim`. -/
def rstrTrim (s : RStr) : RStr :=
  ((s.dropWhile isWs).reverse.dropWhile isWs).reverse

/-- Decimal digit test, `char::is_ascii_digit`. -/
def isDigitCh (c : Char) : Bool :=
  '0' ≤ c && c ≤ '9'

/-- The character of a decimal digit. -/
def digitCh (d : Nat) : Char :=
  Char.ofNat (48 + d)

/-- Decimal rendering of a `Nat`, the display form used by Rust for the
unsigned integers appearing in rule strings. -/
def natDisp (n : Nat) : RStr :=
  if _ : n < 10 then [digitCh n]
  else natDisp (n / 10) ++ [digitCh (n % 10)]
termination_by n
decreasing_by
  exact Nat.div_lt_self (by omega) (by omega)

/-- Parse a non-empty all-digit string as a `Nat`; any other input is a
parse error (`none`).  Models `str::parse` for unsigned integers on the
canonical display forms appearing here. -/
def parseNatR (s : RStr) : Option Nat :=
  if s.isEmpty then none
  else if s.all isDigitCh then
    some (s.foldl (fun acc c => acc * 10 + (c.toNat - 48)) 0)
  else none

end Lightway

namespace Lightway

/-! ## Rule-engine subnet matching

Embedding of `ipv4_subnet_mask` and `is_subnet` from
`proxy-rules/src/lib.rs` (an identical copy lives in
`src/rule/rules.rs`).  An IPv4 address is a quadruple of octets.  The
Rust function indexes a `[u8; 4]` at `n + 1`, which panics when the
index is 4; the panic is modelled by `none`. -/

/-- An IPv4 address as its four octets. -/
structure Ipv4 where
  o0 : Nat
  o1 : Nat
  o2 : Nat
  o3 : Nat
deriving DecidableEq, Repr

/-- Four mask bytes. -/
structure MaskBytes where
  m0 : Nat
  m1 : Nat
  m2 : Nat
  m3 : Nat
deriving DecidableEq, Repr

/-- Write `v` at position `i` of the four mask bytes; `none` models the
index-out-of-bounds panic of `sub_mask[n + 1] = v`. -/
def setMaskByte (b : MaskBytes) (i v : Nat) : Option MaskBytes :=
  match i with
  | 0 => some { b with m0 := v }
  | 1 => some { b with m1 := v }
  | 2 => some { b with m2 := v }
  | 3 => some { b with m3 := v }
  | _ => none

/-- Embedding of `ipv4_subnet_mask`.  The `match n` arm `_ => return
[0xff; 4]` covers every `n ≥ 4`; otherwise the partial byte for the
remaining `m` bits is written at index `n + 1`. -/
def ipv4SubnetMask (mask : Nat) : Option MaskBytes :=
  let n := mask / 8
  let m := mask % 8
  if n ≥ 4 then
    some ⟨0xff, 0xff, 0xff, 0xff⟩
  else
    let base : MaskBytes :=
      match n with
      | 0 => ⟨0, 0, 0, 0⟩
      | 1 => ⟨0xff, 0, 0, 0⟩
      | 2 => ⟨0xff, 0xff, 0, 0⟩
      | _ => ⟨0xff, 0xff, 0xff, 0⟩
    let v : Nat :=
      match m with
      | 0 => 0
      | 1 => 0x80
      | 2 => 0xc0
      | 3 => 0xe0
      | 4 => 0xf0
      | 5 => 0xf8
      | 6 => 0xfc
      | _ => 0xfe
    setMaskByte base (n + 1) v

/-- Embedding of the IPv4 branch of `is_subnet`: byte-wise comparison of
`ip` and the rule network `subnet` under the computed mask.  `none`
models the panic inside `ipv4_subnet_mask`. -/
def isSubnetV4 (ip subnet : Ipv4) (mask : Nat) : Option Bool :=
  (ipv4SubnetMask mask).map fun sm =>
    ip.o0 &&& sm.m0 == subnet.o0 &&& sm.m0 &&
    ip.o1 &&& sm.m1 == subnet.o1 &&& sm.m1 &&
    ip.o2 &&& sm.m2 == subnet.o2 &&& sm.m2 &&
    ip.o3 &&& sm.m3 == subnet.o3 &&& sm.m3

/-- The 32-bit value of an IPv4 address. -/
def Ipv4.toNat32 (a : Ipv4) : Nat :=
  a.o0 * 2 ^ 24 + a.o1 * 2 ^ 16 + a.o2 * 2 ^ 8 + a.o3

/-- Modelled from the spec: two IPv4 addresses agree on their top `p`
bits.  This is the specification-side meaning of CIDR matching that the
claim asserts `is_subnet` implements. -/
def ipv4TopBitsEq (p : Nat) (a b : Ipv4) : Bool :=
  a.toNat32 / 2 ^ (32 - p) == b.toNat32 / 2 ^ (32 - p)

end Lightway

namespace Lightway

/-! ## Decisions, destinations and rule patterns

`Decision` is defined identically in `proxy-rules/src/lib.rs` and
`src/rule/mod.rs`; one inductive serves for both.  Sixteen raw bytes
stand for an `Ipv6Addr`.  `DstAddr` is the netway destination type,
`TargetAddr` the proxy-io one; they have the same two constructors but
different `Default` values, so both are embedded. -/

/-- An IPv6 address as its sixteen raw octets. -/
structure Ipv6 where
  bytes : List Nat
deriving DecidableEq, Repr

/-- The standard-library `IpAddr`. -/
inductive IpAddrE
  | v4 (a : Ipv4)
  | v6 (a : Ipv6)
deriving DecidableEq, Repr

/-- The standard-library `SocketAddr`. -/
inductive SockAddr
  | v4 (ip : Ipv4) (port : Nat)
  | v6 (ip : Ipv6) (port : Nat)
deriving DecidableEq, Repr

/-- The `IpAddr` of a `SocketAddr`, `addr.ip()`. -/
def SockAddr.ip : SockAddr → IpAddrE
  | .v4 i _ => .v4 i
  | .v6 i _ => .v6 i

/-- `netway::dst::DstAddr`. -/
inductive DstAddr
  | socket (sa : SockAddr)
  | domain (d : RStr) (port : Nat)
deriving DecidableEq, Repr

/-- `proxy_io::TargetAddr`. -/
inductive TargetAddr
  | socketAddr (sa : SockAddr)
  | domain (d : RStr) (port : Nat)
deriving DecidableEq, Repr

/-- `impl Default for TargetAddr` in `proxy-io/src/addr.rs`: the
loopback socket address `127.0.0.1:0`. -/
def TargetAddr.defaultVal : TargetAddr :=
  .socketAddr (.v4 ⟨127, 0, 0, 1⟩ 0)

/-- `impl Default for DstAddr` in `crates/netway/src/dst.rs`: the
unspecified socket address `0.0.0.0:0`. -/
def DstAddr.defaultVal : DstAddr :=
  .socket (.v4 ⟨0, 0, 0, 0⟩ 0)

/-- Display form of an IPv4 address, `a.b.c.d`. -/
def dispV4 (a : Ipv4) : RStr :=
  natDisp a.o0 ++
    '.' :: (natDisp a.o1 ++ '.' :: (natDisp a.o2 ++ '.' :: natDisp a.o3))

/-- Display form of a `TargetAddr` (`impl fmt::Display for TargetAddr`):
`ip:port` or `domain:port`.  The standard-library rendering of an IPv6
socket address is external and is supplied as `v6s`, which must produce
the whole `[addr]:port` form. -/
def targetToStr (v6s : Ipv6 → Nat → RStr) : TargetAddr → RStr
  | .socketAddr (.v4 ip p) => dispV4 ip ++ ':' :: natDisp p
  | .socketAddr (.v6 ip p) => v6s ip p
  | .domain d p => d ++ ':' :: natDisp p

/-- `Decision`, shared by `proxy-rules/src/lib.rs` and
`src/rule/mod.rs`. -/
inductive Decision
  | direct
  | proxy (remoteDns : Bool)
  | dfault
  | deny
deriving DecidableEq, Repr

/-- `Decision::is_default`. -/
def Decision.isDefault : Decision → Bool
  | .dfault => true
  | _ => false

/-- `proxy_rules::Pattern`. -/
inductive Pattern
  | exact (s : RStr)
  | sfx (s : RStr)
  | regex (src : RStr)
  | keyword (s : RStr)
  | ipExact (a : IpAddrE)
  | ipCIDR (a : IpAddrE) (mask : Nat)
deriving DecidableEq, Repr

/-- The IPv4 arm of `is_subnet` dispatching on the rule address first,
then the destination address; the IPv6 arm is `unimplemented!`,
modelled as `none`. -/
def isSubnet (ip subnet : IpAddrE) (mask : Nat) : Option Bool :=
  match subnet with
  | .v4 sn =>
      match ip with
      | .v4 i => isSubnetV4 i sn mask
      | .v6 _ => some false
  | .v6 _ => none

/-- `Pattern::is_match` over the destination display string.  The
`regex` crate matcher is the oracle `rm` (regex source, then input);
the standard-library `SocketAddrV4` / `SocketAddrV6` parsers are the
oracles `pv4` / `pv6`.  `none` models a panic inside `is_subnet`. -/
def Pattern.isMatch (rm : RStr → RStr → Bool)
    (pv4 : RStr → Option (Ipv4 × Nat)) (pv6 : RStr → Option (Ipv6 × Nat)) :
    Pattern → RStr → Option Bool
  | .exact s, dst => some (rstrStartsWith dst s)
  | .sfx s, dst => some (rstrEndsWith dst s)
  | .regex r, dst => some (rm r dst)
  | .keyword s, dst => some (rstrContains dst s)
  | .ipExact (.v4 a), dst =>
      some (match pv4 dst with
        | some (ip, _) => ip == a
        | none => false)
  | .ipExact (.v6 a), dst =>
      some (match pv6 dst with
        | some (ip, _) => ip == a
        | none => false)
  | .ipCIDR (.v4 a) mask, dst =>
      match pv4 dst with
      | some (ip, _) => isSubnet (.v4 ip) (.v4 a) mask
      | none => some false
  | .ipCIDR (.v6 a) mask, dst =>
      match pv6 dst with
      | some (ip, _) => isSubnet (.v6 ip) (.v6 a) mask
      | none => some false

/-- `proxy_rules::Rule`: a pattern plus a decision. -/
structure Rule where
  pattern : Pattern
  decision : Decision
deriving DecidableEq, Repr

/-- `impl Policy for Rule`: the rule decision when the pattern matches,
`Default` otherwise. -/
def ruleEnforce (rm : RStr → RStr → Bool)
    (pv4 : RStr → Option (Ipv4 × Nat)) (pv6 : RStr → Option (Ipv6 × Nat))
    (r : Rule) (dst : RStr) : Option Decision :=
  (r.pattern.isMatch rm pv4 pv6 dst).map fun b =>
    if b then r.decision else .dfault

/-- `impl<P: Policy> Policy for Vec<P>` in `proxy-rules/src/lib.rs`:
scan in order, return the first non-`Default` decision, else `Default`.
The per-element policy method is the function `enf`; `none` models a
panic inside it. -/
def enforceVec {P : Type} (enf : P → RStr → Option Decision) :
    List P → RStr → Option Decision
  | [], _ => some .dfault
  | p :: ps, dst =>
      match enf p dst with
      | none => none
      | some d => if d.isDefault then enforceVec enf ps dst else some d

/-- `src/rule/mod.rs` `Args`: the extra comma-separated rule options. -/
abbrev Args := List RStr

/-- `src/rule/rules.rs` `Rule`. -/
inductive SrcRule
  | domainExact (s : RStr)
  | domainSuffix (s : RStr)
  | domainRegex (src : RStr)
  | domainKeyword (s : RStr)
  | ipExact (a : IpAddrE)
  | ipCIDR (a : IpAddrE) (mask : Nat)
deriving DecidableEq, Repr

/-- `Rule::is_match` of `src/rule/rules.rs`, over structured `DstAddr`
destinations.  A failed match-guard falls through to `_ => false`;
a panic inside `is_subnet` is `none`. -/
def SrcRule.isMatch (rm : RStr → RStr → Bool) :
    SrcRule → DstAddr → Option Bool
  | .domainExact s, .domain d _ => some (d == s)
  | .domainExact _, .socket _ => some false
  | .domainSuffix s, .domain d _ => some (rstrEndsWith d s)
  | .domainSuffix _, .socket _ => some false
  | .domainRegex r, .domain d _ => some (rm r d)
  | .domainRegex _, .socket _ => some false
  | .domainKeyword s, .domain d _ => some (rstrContains d s)
  | .domainKeyword _, .socket _ => some false
  | .ipExact a, .socket sa => some (sa.ip == a)
  | .ipExact _, .domain _ _ => some false
  | .ipCIDR a mask, .socket sa => isSubnet sa.ip a mask
  | .ipCIDR _ _, .domain _ _ => some false

/-- `impl Policy for (Rule, Decision, Option<Args>)` in
`src/rule/mod.rs`. -/
def tripleEnforce (rm : RStr → RStr → Bool)
    (t : SrcRule × Decision × Option Args) (dst : DstAddr) :
    Option (Decision × Option Args) :=
  (t.1.isMatch rm dst).map fun b =>
    if b then (t.2.1, t.2.2) else (.dfault, none)

/-- `impl<P: Policy> Policy for Vec<P>` in `src/rule/mod.rs`: same
first-match scan, carrying the matched args. -/
def enforceVecA {P : Type}
    (enf : P → DstAddr → Option (Decision × Option Args)) :
    List P → DstAddr → Option (Decision × Option Args)
  | [], _ => some (.dfault, none)
  | p :: ps, dst =>
      match enf p dst with
      | none => none
      | some (d, args) =>
          if d.isDefault then enforceVecA enf ps dst else some (d, args)

end Lightway

namespace Lightway

/-! ## Dialers and the policy dispatch

Embeddings of `ProxyConnect::call` (`proxy-io/src/stream.rs`) and
`Dialer::try_connect` (`src/rule/mod.rs`).  The underlying dialers are
oracles so that the theorems can quantify over them: a result that is
fixed for every dialer oracle is one the code produced without invoking
any dialer. -/

/-- The `std::io::ErrorKind` values this code distinguishes. -/
inductive IoErrorKind
  | hostUnreachable
  | networkUnreachable
  | connectionRefused
  | notConnected
  | invalidData
  | unexpectedEof
  | permissionDenied
  | timedOut
  | unsupported
  | other
deriving DecidableEq, Repr

/-- `proxy_io::stream::Connection`: the tagged sum returned by the
policy dialer (the proxy arm wraps a `ProxyStream`). -/
inductive Connection (S : Type)
  | proxy (s : S)
  | direct (s : S)
deriving DecidableEq, Repr

/-- `ProxyConnect::call` from `proxy-io/src/stream.rs`.  The decision is
the forced proxy decision, else the policy verdict on the display string
of the target, else `Default`; the dispatch then calls one of the two
dialer oracles, except for `Deny`, which is an immediate
`HostUnreachable` error. -/
def proxyConnectCall {S : Type} (forceProxy defautProxy : Bool)
    (policy : Option (RStr → Decision)) (v6s : Ipv6 → Nat → RStr)
    (connect proxyConn : TargetAddr → Except IoErrorKind S)
    (target : TargetAddr) : Except IoErrorKind (Connection S) :=
  let decision :=
    if forceProxy then Decision.proxy true
    else
      match policy with
      | some p => p (targetToStr v6s target)
      | none => Decision.dfault
  match decision with
  | .direct => (connect target).map .direct
  | .proxy _ => (proxyConn target).map .proxy
  | .dfault =>
      if defautProxy then (proxyConn target).map .proxy
      else (connect target).map .direct
  | .deny => .error .hostUnreachable

/-- `netway::error::Error`. -/
inductive NetError
  | succeed
  | io (k : IoErrorKind)
  | parseError
  | invalidDstAddress (msg : RStr)
  | proxyServerUnreachable
  | invalidReplyVersion
  | noAcceptableMethods
  | unknownMethod
  | generalSocksServerFailure
  | connectionNotAllowedByRuleset
  | networkUnreachable
  | hostUnreachable
  | connectionRefused
  | ttlExpired
  | commandNotSupported
  | addressTypeNotSupported
  | unknownError
  | invalidReservedByte
  | unknownAddressType
  | invalidAuthValues (msg : RStr)
  | passwordAuthFailure (code : Nat)
  | authorizationRequired
  | proxyDenied
deriving DecidableEq, Repr

/-- `netway::either::Either`, the tagged stream sum returned by the
rule dialer. -/
inductive EitherLR (T O : Type)
  | left (t : T)
  | right (o : O)
deriving DecidableEq, Repr

/-- `Dialer::try_connect` from `src/rule/mod.rs`.  `policy` is the
`Policy` trait object, `dialer` the configured (proxy) dialer field and
`defaultDialer` the ad-hoc `DefaultDialer` used on the direct paths. -/
def ruleDialerTryConnect {T O : Type}
    (policy : DstAddr → Decision × Option Args) (proxyOnDefault : Bool)
    (dialer : DstAddr → Except NetError O)
    (defaultDialer : DstAddr → Except NetError T)
    (dst : DstAddr) : Except NetError (EitherLR T O) :=
  match (policy dst).1 with
  | .direct => (defaultDialer dst).map .left
  | .proxy _ => (dialer dst).map .right
  | .dfault =>
      if proxyOnDefault then (defaultDialer dst).map .left
      else (dialer dst).map .right
  | .deny => .error .proxyDenied

end Lightway

namespace Lightway

/-! ## SOCKS5 wire types

Embeddings from `crates/netway/src/socks5/protocol.rs` and the
parallel `proxy-socks/src/types.rs`.  Serialisers are modelled as the
byte lists the Rust writers emit. -/

/-- `netway::socks5::Status`: the username/password subnegotiation
status in the netway codec. -/
inductive NStatus
  | ok
  | failure (c : Nat)
deriving DecidableEq, Repr

/-- `impl TryFrom<u8> for Status` in netway: `0x01` is `Ok`, anything
else is `Failure(n)` (always succeeds). -/
def nstatusTryFrom (v : Nat) : NStatus :=
  match v with
  | 0x01 => .ok
  | n => .failure n

/-- `Status::code` in netway: the byte written for this status. -/
def NStatus.code : NStatus → Nat
  | .ok => 0x01
  | .failure c => c

/-- Bytes of a netway `PasswordReply(PasswordVersion, status)`:
`PasswordVersion` writes `0x01`, then the status code. -/
def passwordReplyBytes (s : NStatus) : List Nat :=
  [0x01, s.code]

/-- `proxy-socks` `AUTH_SUCCEED` constant. -/
def AUTH_SUCCEED : Nat := 0x00

/-- `proxy_socks::types::Status`: version byte plus raw status byte. -/
structure PsStatus where
  version : Nat
  status : Nat
deriving DecidableEq, Repr

/-- `Status::new` in proxy-socks: version is `AUTH_VERSION` (`0x01`). -/
def PsStatus.new (status : Nat) : PsStatus :=
  ⟨0x01, status⟩

/-- `Status::is_succeed` in proxy-socks: the status byte equals
`AUTH_SUCCEED` (`0x00`). -/
def PsStatus.isSucceed (s : PsStatus) : Bool :=
  s.status == AUTH_SUCCEED

/-- `Status::write` in proxy-socks: version byte then status byte. -/
def PsStatus.writeBytes (s : PsStatus) : List Nat :=
  [s.version, s.status]

/-- The SOCKS5 reply code, `Rep` (identical in netway and
proxy-socks). -/
inductive Rep
  | succeeded
  | generalSocksServerFailure
  | connectionNotAllowedByRuleset
  | networkUnreachable
  | hostUnreachable
  | connectionRefused
  | ttlExpired
  | commandNotSupported
  | addressTypeNotSupported
deriving DecidableEq, Repr

/-- The wire byte of a `Rep` (its `#[repr(u8)]` discriminant). -/
def Rep.toU8 : Rep → Nat
  | .succeeded => 0x00
  | .generalSocksServerFailure => 0x01
  | .connectionNotAllowedByRuleset => 0x02
  | .networkUnreachable => 0x03
  | .hostUnreachable => 0x04
  | .connectionRefused => 0x05
  | .ttlExpired => 0x06
  | .commandNotSupported => 0x07
  | .addressTypeNotSupported => 0x08

/-- `Rep::from_err` from `crates/netway/src/socks5/protocol.rs`: the
mapping from a netway error to the reply code sent to the client.  The
two commented-out `io_remote_more` arms of the source are absent, so a
wrapped `Io` error maps to `ConnectionRefused` only for that kind and
to `AddressTypeNotSupported` otherwise. -/
def repFromErr (e : NetError) : Rep :=
  match e with
  | .succeed => .succeeded
  | .io k =>
      match k with
      | .connectionRefused => .connectionRefused
      | _ => .addressTypeNotSupported
  | .invalidDstAddress _ => .addressTypeNotSupported
  | .connectionRefused => .connectionRefused
  | .networkUnreachable => .networkUnreachable
  | .hostUnreachable => .hostUnreachable
  | .commandNotSupported => .commandNotSupported
  | .ttlExpired => .ttlExpired
  | _ => .generalSocksServerFailure

/-- Big-endian `u16` bytes, `write_u16`. -/
def u16Bytes (p : Nat) : List Nat :=
  [p / 256 % 256, p % 256]

/-- `impl ToSocket for DstAddr` in netway: ATYP byte, address bytes,
big-endian port. -/
def dstAddrBytes : DstAddr → List Nat
  | .domain d p => 0x03 :: d.length :: d.map Char.toNat ++ u16Bytes p
  | .socket (.v4 ip p) => 0x01 :: [ip.o0, ip.o1, ip.o2, ip.o3] ++ u16Bytes p
  | .socket (.v6 ip p) => 0x04 :: ip.bytes ++ u16Bytes p

/-- Bytes of a netway `DstReply(SocksVersion, rep, Rsv, dst)`:
`0x05`, the reply code, `0x00`, then the address triple. -/
def dstReplyBytes (rep : Rep) (dst : DstAddr) : List Nat :=
  0x05 :: rep.toU8 :: 0x00 :: dstAddrBytes dst

/-- The dial-failure arm of `Proxy::serve` in
`crates/netway/src/socks5.rs`: convert the dialer error, send a
`DstReply` with the default (all-zero) bound address, then propagate the
original error.  The value is the pair of the bytes written and the
error returned. -/
def serveDialFailure (e : NetError) : List Nat × NetError :=
  (dstReplyBytes (repFromErr e) DstAddr.defaultVal, e)

/-- The `Command::Bind | Command::Associate` arm of `Proxy::serve`:
a `CommandNotSupported` reply with the default bound address, then the
`CommandNotSupported` error. -/
def serveUnsupportedCommand : List Nat × NetError :=
  (dstReplyBytes .commandNotSupported DstAddr.defaultVal,
    .commandNotSupported)

end Lightway

namespace Lightway

/-! ## The proxy-socks server

Embeddings from `proxy-socks/src/server.rs` and the reply serialiser of
`proxy-socks/src/types.rs`. -/

/-- `proxy_socks::error::Kind`. -/
inductive PsKind
  | invalidVersion
  | unknownMethod
  | noAcceptableMethods
  | generalSocksServerFailure
  | connectionNotAllowedByRuleset
  | ttlExpired
  | commandNotSupported
  | addressTypeNotSupported
  | unknownRep
  | unauthorized
deriving DecidableEq, Repr

/-- `TargetAddr` serialised as the SOCKS5 address triple, as the
`write` methods of `Request` / `Reply` in `proxy-socks/src/types.rs`
emit it. -/
def targetAddrBytes : TargetAddr → List Nat
  | .socketAddr (.v4 ip p) =>
      0x01 :: [ip.o0, ip.o1, ip.o2, ip.o3] ++ u16Bytes p
  | .socketAddr (.v6 ip p) => 0x04 :: ip.bytes ++ u16Bytes p
  | .domain d p => 0x03 :: d.length :: d.map Char.toNat ++ u16Bytes p

/-- Bytes of `Reply::new(rep).write(..)` in proxy-socks: version `0x05`,
the reply code, the reserved `0x00`, then the address triple of the
default target (`TargetAddr::default()`, which is `127.0.0.1:0`). -/
def psReplyNewBytes (rep : Rep) : List Nat :=
  0x05 :: rep.toU8 :: 0x00 :: targetAddrBytes TargetAddr.defaultVal

/-- A parsed SOCKS5 request as `Request::read` produces it: raw version
and command bytes plus an optional target (an unknown ATYP leaves the
target `None`). -/
structure PsRequest where
  version : Nat
  command : Nat
  target : Option TargetAddr
deriving DecidableEq, Repr

/-- `Request::is_connect`: the command byte equals `CONNECT`
(`0x01`). -/
def PsRequest.isConnect (r : PsRequest) : Bool :=
  r.command == 0x01

/-- The body of `handle` in `proxy-socks/src/server.rs` after the
request has been read and its version validated: an absent target is
answered with `AddressTypeNotSupported`, a non-CONNECT command with
`CommandNotSupported`; a CONNECT request yields its target.  The value
pairs the bytes written to the client with the outcome. -/
def psHandle (req : PsRequest) : List Nat × Except PsKind TargetAddr :=
  match req.target with
  | none =>
      (psReplyNewBytes .addressTypeNotSupported,
        .error .addressTypeNotSupported)
  | some t =>
      if req.isConnect then ([], .ok t)
      else (psReplyNewBytes .commandNotSupported, .error .commandNotSupported)

/-- The reply-code selection in the dial-failure arm of `Server::call`
in `proxy-socks/src/server.rs`: only three `io::ErrorKind` values are
distinguished, everything else becomes
`GeneralSocksServerFailure`. -/
def psServerRepOf (k : IoErrorKind) : Rep :=
  match k with
  | .connectionRefused => .connectionRefused
  | .hostUnreachable => .hostUnreachable
  | .networkUnreachable => .networkUnreachable
  | _ => .generalSocksServerFailure

/-- The dial-failure arm of `Server::call`: write the mapped reply with
the default bound address, shut the socket down, and propagate the
original I/O error.  The value is (bytes written, error returned). -/
def psServerDialFailure (k : IoErrorKind) : List Nat × IoErrorKind :=
  (psReplyNewBytes (psServerRepOf k), k)

/-- The authentication-outcome writes of `prepare_with` in
`proxy-socks/src/server.rs`: `Status::new(0x01)` on a failed credential
check, `Status::new(0x00)` on success. -/
def psAuthStatusBytes (ok : Bool) : List Nat :=
  if ok then (PsStatus.new 0x00).writeBytes else (PsStatus.new 0x01).writeBytes

end Lightway

namespace Lightway

/-! ## HTTP-CONNECT tunnel

Embeddings from `crates/netway/src/tunnel.rs` and
`crates/netway/src/tunnel/protocol.rs`.  The socket is a character
stream; `read_line` is the tokio primitive: everything up to and
including the first newline, or the whole remainder at end of file. -/

/-- Model of `AsyncBufReadExt::read_line`: the line (newline included
when present) and the rest of the stream. -/
def readLineS : List Char → RStr × List Char
  | [] => ([], [])
  | c :: cs =>
      if c = '\n' then ([c], cs)
      else
        let (l, r) := readLineS cs
        (c :: l, r)

theorem readLineS_append (s : List Char) :
    (readLineS s).1 ++ (readLineS s).2 = s := by
  induction s with
  | nil => rfl
  | cons c cs ih =>
      by_cases h : c = '\n'
      · simp [readLineS, h]
      · simp [readLineS, h, ih]

theorem readLineS_rest_lt (s : List Char) (h : (readLineS s).1 ≠ []) :
    (readLineS s).2.length < s.length := by
  have hlen : (readLineS s).1.length + (readLineS s).2.length = s.length := by
    have := congrArg List.length (readLineS_append s)
    simpa using this
  have hpos : 0 < (readLineS s).1.length := List.length_pos.mpr h
  omega

/-- The collection loop of `read_headers`: record each line while its
size is at least 3, stop at the first shorter read (the blank
terminator or end of file). -/
def collectLines (s : List Char) : List RStr :=
  if h : (readLineS s).1.length < 3 then []
  else
    (readLineS s).1 :: collectLines (readLineS s).2
termination_by s.length
decreasing_by
  exact readLineS_rest_lt s (by intro hnil; simp [hnil] at h)

/-- The stream decomposed into its `read_line` results: each line
carries its terminating newline, an EOF-truncated final line does
not. -/
def linesOf : List Char → List RStr
  | [] => []
  | c :: cs =>
      if c = '\n' then ['\n'] :: linesOf cs
      else
        match linesOf cs with
        | [] => [[c]]
        | l :: ls => (c :: l) :: ls

/-- Split a string at the first occurrence of `sep`; `none` when the
separator is absent, which models the `splits[1]` index panic of
`read_headers`. -/
def splitAtFirst (sep : Char) : RStr → Option (RStr × RStr)
  | [] => none
  | c :: cs =>
      if c = sep then some ([], cs)
      else (splitAtFirst sep cs).map fun q => (c :: q.1, q.2)

/-- The per-line mapping of `read_headers`: the recorded slice is the
line minus its final character (`off + size - 1`), split at the first
colon, both sides trimmed. -/
def parseHeaderLine (l : RStr) : Option (RStr × RStr) :=
  (splitAtFirst ':' l.dropLast).map fun q => (rstrTrim q.1, rstrTrim q.2)

/-- The mapping pass of `read_headers` over the recorded lines; the
whole call fails (`none`) as soon as one line has no colon, which is
the `splits[1]` panic. -/
def mapHeaders : List RStr → Option (List (RStr × RStr))
  | [] => some []
  | l :: ls =>
      match parseHeaderLine l, mapHeaders ls with
      | some h, some hs => some (h :: hs)
      | _, _ => none

/-- `read_headers` from `crates/netway/src/tunnel/protocol.rs`: collect
the line ranges, then map each to a header; `none` is the index panic on
a colon-less line. -/
def readHeadersS (s : List Char) : Option (List (RStr × RStr)) :=
  mapHeaders (collectLines s)

/-- Modelled from the spec sentence of the claim: a header line split
at the first `:` with name and value trimmed (the whole line, nothing
dropped). -/
def specHeaderOfLine (l : RStr) : Option (RStr × RStr) :=
  (splitAtFirst ':' l).map fun q => (rstrTrim q.1, rstrTrim q.2)

/-- The `Content-Length` scan of `proxy_connect` in
`crates/netway/src/tunnel.rs`: the loop actually tests each header name
against the name content-type and parses that header value as the body
size, failing with `InvalidData` when the value is not a number. -/
def computeBodySize (headers : List (RStr × RStr)) :
    Except IoErrorKind Nat :=
  headers.foldlM
    (fun acc h =>
      if rstrEqIgnoreAsciiCase h.1 ('c' :: 'o' :: 'n' :: 't' :: 'e' :: 'n' :: 't' :: '-' :: 't' :: 'y' :: 'p' :: 'e' :: []) then
        match parseNatR h.2 with
        | some n => .ok n
        | none => .error .invalidData
      else .ok acc)
    0

/-- The response-processing tail of `proxy_connect` in
`crates/netway/src/tunnel.rs`, after the CONNECT request has been
written: compute the body size from the headers, consume that many body
bytes (`read_exact`, which fails with `UnexpectedEof` on a short
stream), then parse the status field as a `u16`.  The value carries the
status code and the unread remainder of the stream. -/
def tunnelProxyConnect (status : RStr) (headers : List (RStr × RStr))
    (rest : List Nat) : Except IoErrorKind (Nat × List Nat) :=
  match computeBodySize headers with
  | .error e => .error e
  | .ok bodySize =>
      let afterBody : Except IoErrorKind (List Nat) :=
        if bodySize > 0 then
          if bodySize ≤ rest.length then .ok (rest.drop bodySize)
          else .error .unexpectedEof
        else .ok rest
      match afterBody with
      | .error e => .error e
      | .ok rest2 =>
          match parseNatR status with
          | some code =>
              if code < 65536 then .ok (code, rest2)
              else .error .invalidData
          | none => .error .invalidData

/-- The result handling of `ProxyDialer::try_connect` in
`crates/netway/src/tunnel.rs`: status 200 returns the stream; any other
status or error shuts the stream down and fails with
`ProxyServerUnreachable`.  The boolean records whether the stream was
shut down. -/
def proxyDialerHandle (res : Except IoErrorKind (Nat × List Nat)) :
    Bool × Except NetError Unit :=
  match res with
  | .ok (code, _) =>
      if code == 200 then (false, .ok ())
      else (true, .error .proxyServerUnreachable)
  | .error _ => (true, .error .proxyServerUnreachable)

end Lightway

namespace Lightway

/-! ## Rule parsing and display

Embeddings of `impl Display for Pattern / Decision / Rule` and
`impl FromStr for Rule` from `proxy-rules/src/lib.rs`.  The
standard-library `Ipv6Addr` formatter and parser and the regex
compiler are external; they enter as the oracles `v6s`, `pv6` and
`rnew` together with the laws the round-trip theorem assumes of
them. -/

/-- Tag literal `DOMAIN`. -/
def tagDOMAIN : RStr := ['D', 'O', 'M', 'A', 'I', 'N']

/-- Tag literal `DOMAIN-SUFFIX`. -/
def tagDOMAINSUFFIX : RStr :=
  ['D', 'O', 'M', 'A', 'I', 'N', '-', 'S', 'U', 'F', 'F', 'I', 'X']

/-- Tag literal `DOMAIN-REGEX`. -/
def tagDOMAINREGEX : RStr :=
  ['D', 'O', 'M', 'A', 'I', 'N', '-', 'R', 'E', 'G', 'E', 'X']

/-- Tag literal `DOMAIN-KEYWORD`. -/
def tagDOMAINKEYWORD : RStr :=
  ['D', 'O', 'M', 'A', 'I', 'N', '-', 'K', 'E', 'Y', 'W', 'O', 'R', 'D']

/-- Tag literal `IPV4`. -/
def tagIPV4 : RStr := ['I', 'P', 'V', '4']

/-- Tag literal `IPV6`. -/
def tagIPV6 : RStr := ['I', 'P', 'V', '6']

/-- Tag literal `IP-CIDR`. -/
def tagIPCIDR : RStr := ['I', 'P', '-', 'C', 'I', 'D', 'R']

/-- Tag literal `IP-CIDR6`. -/
def tagIPCIDR6 : RStr := ['I', 'P', '-', 'C', 'I', 'D', 'R', '6']

/-- Argument literal `force-remote-dns`. -/
def argFORCEREMOTEDNS : RStr :=
  ['f', 'o', 'r', 'c', 'e', '-', 'r', 'e', 'm', 'o', 't', 'e', '-',
   'd', 'n', 's']

/-- `impl fmt::Display for Decision`: note that the `force-remote-dns`
argument is rendered with its own comma. -/
def decisionToStr : Decision → RStr
  | .direct => ['D', 'I', 'R', 'E', 'C', 'T']
  | .proxy true =>
      ['P', 'R', 'O', 'X', 'Y', ','] ++ argFORCEREMOTEDNS
  | .proxy false => ['P', 'R', 'O', 'X', 'Y']
  | .dfault => ['D', 'E', 'F', 'A', 'U', 'L', 'T']
  | .deny => ['D', 'E', 'N', 'Y']

/-- `impl fmt::Display for Pattern`: `TAG,RENDERED-PATTERN`.  A v6 CIDR
pattern is displayed with the `IP-CIDR6` tag. -/
def patternToStr (v6s : Ipv6 → RStr) : Pattern → RStr
  | .exact s => tagDOMAIN ++ ',' :: s
  | .sfx s => tagDOMAINSUFFIX ++ ',' :: s
  | .regex r => tagDOMAINREGEX ++ ',' :: r
  | .keyword s => tagDOMAINKEYWORD ++ ',' :: s
  | .ipExact (.v4 a) => tagIPV4 ++ ',' :: dispV4 a
  | .ipExact (.v6 a) => tagIPV6 ++ ',' :: v6s a
  | .ipCIDR (.v4 a) m => tagIPCIDR ++ ',' :: (dispV4 a ++ '/' :: natDisp m)
  | .ipCIDR (.v6 a) m => tagIPCIDR6 ++ ',' :: (v6s a ++ '/' :: natDisp m)

/-- `impl fmt::Display for Rule`: pattern, comma, decision. -/
def ruleToStr (v6s : Ipv6 → RStr) (r : Rule) : RStr :=
  patternToStr v6s r.pattern ++ ',' :: decisionToStr r.decision

/-- One dotted-quad group of the standard-library `Ipv4Addr` parser:
decimal, at most 255, no leading zero. -/
def parseOctet (s : RStr) : Option Nat :=
  match parseNatR s with
  | some n =>
      if n ≤ 255 ∧ (s.head? = some '0' → s.length = 1) then some n
      else none
  | none => none

/-- The standard-library `Ipv4Addr` parser: exactly four octet groups
separated by dots. -/
def parseV4R (s : RStr) : Option Ipv4 :=
  match splitOnChar '.' s with
  | [a, b, c, d] =>
      match parseOctet a, parseOctet b, parseOctet c, parseOctet d with
      | some x0, some x1, some x2, some x3 => some ⟨x0, x1, x2, x3⟩
      | _, _, _, _ => none
  | _ => none

/-- The standard-library `IpAddr` parser: IPv4 first, then the external
IPv6 parser `pv6`. -/
def parseIpAddrR (pv6 : RStr → Option Ipv6) (s : RStr) : Option IpAddrE :=
  match parseV4R s with
  | some a => some (.v4 a)
  | none => (pv6 s).map .v6

/-- The pattern-tag dispatch of `impl FromStr for Rule`: the tag is
compared case-insensitively against each known tag in source order;
`IP-CIDR6` is absent from the list, so it falls through to the
`unknown pattern tag` error. -/
def parsePatternTagged (pv6 : RStr → Option Ipv6)
    (rnew : RStr → Option RStr) (t p : RStr) : Option Pattern :=
  if rstrEqIgnoreAsciiCase t tagDOMAIN then some (.exact p)
  else if rstrEqIgnoreAsciiCase t tagDOMAINSUFFIX then some (.sfx p)
  else if rstrEqIgnoreAsciiCase t tagDOMAINREGEX then (rnew p).map .regex
  else if rstrEqIgnoreAsciiCase t tagDOMAINKEYWORD then some (.keyword p)
  else if rstrEqIgnoreAsciiCase t tagIPV4 || rstrEqIgnoreAsciiCase t tagIPV6 then
    (parseIpAddrR pv6 p).map .ipExact
  else if rstrEqIgnoreAsciiCase t tagIPCIDR then
    match splitAtFirst '/' p with
    | some (a, m) =>
        match parseIpAddrR pv6 a, parseNatR m with
        | some addr, some mk => some (.ipCIDR addr mk)
        | _, _ => none
    | none => none
  else none

/-- The decision parse of `impl FromStr for Rule`: case-insensitive
decision word; for `proxy`, `remote_dns` is set when some argument is
`force-remote-dns`. -/
def parseDecisionParts (d : RStr) (args : List RStr) : Option Decision :=
  if rstrEqIgnoreAsciiCase d ['d', 'i', 'r', 'e', 'c', 't'] then
    some .direct
  else if rstrEqIgnoreAsciiCase d ['p', 'r', 'o', 'x', 'y'] then
    some (.proxy (args.any fun a => rstrEqIgnoreAsciiCase a argFORCEREMOTEDNS))
  else if rstrEqIgnoreAsciiCase d ['d', 'e', 'f', 'a', 'u', 'l', 't'] then
    some .dfault
  else if rstrEqIgnoreAsciiCase d ['d', 'e', 'n', 'y'] then
    some .deny
  else none

/-- `impl FromStr for Rule`: split on commas; the first three pieces
are tag, pattern and decision, the remainder are arguments; fewer than
three pieces is an error. -/
def ruleFromStr (pv6 : RStr → Option Ipv6) (rnew : RStr → Option RStr)
    (s : RStr) : Option Rule :=
  match splitOnChar ',' s with
  | t :: p :: d :: args =>
      match parsePatternTagged pv6 rnew t p with
      | some pattern =>
          match parseDecisionParts d args with
          | some decision => some ⟨pattern, decision⟩
          | none => none
      | none => none
  | _ => none

/-- The side conditions under which the display of a rule parses back
to the same rule: component strings are comma-free, IPv4 octets are
bytes, the regex compiler (`rnew`) reproduces a compiled source, and
the external IPv6 formatter and parser (`v6s`, `pv6`) round-trip and
produce text the IPv4 parser rejects.  A v6 CIDR rule has no such
conditions: its display tag `IP-CIDR6` is not accepted by the parser
at all. -/
def RuleWf (pv6 : RStr → Option Ipv6) (v6s : Ipv6 → RStr)
    (rnew : RStr → Option RStr) : Rule → Prop
  | ⟨.exact s, _⟩ => ',' ∉ s
  | ⟨.sfx s, _⟩ => ',' ∉ s
  | ⟨.regex s, _⟩ => ',' ∉ s ∧ rnew s = some s
  | ⟨.keyword s, _⟩ => ',' ∉ s
  | ⟨.ipExact (.v4 a), _⟩ =>
      a.o0 < 256 ∧ a.o1 < 256 ∧ a.o2 < 256 ∧ a.o3 < 256
  | ⟨.ipExact (.v6 a), _⟩ =>
      ',' ∉ v6s a ∧ parseV4R (v6s a) = none ∧ pv6 (v6s a) = some a
  | ⟨.ipCIDR (.v4 a) _, _⟩ =>
      a.o0 < 256 ∧ a.o1 < 256 ∧ a.o2 < 256 ∧ a.o3 < 256
  | ⟨.ipCIDR (.v6 _) _, _⟩ => False

end Lightway

namespace Lightway

/-! ## Shared lemmas about the string utilities -/

theorem splitOnChar_ne_nil (sep : Char) (s : RStr) :
    splitOnChar sep s ≠ [] := by
  induction s with
  | nil => simp [splitOnChar]
  | cons c cs ih =>
      simp only [splitOnChar]
      split
      · simp
      · split <;> simp

theorem splitOnChar_no_sep (sep : Char) (a : RStr) (ha : sep ∉ a) :
    splitOnChar sep a = [a] := by
  induction a with
  | nil => rfl
  | cons c cs ih =>
      have hc : (c == sep) = false := by
        refine beq_eq_false_iff_ne.mpr ?_
        intro h
        exact ha (h ▸ List.mem_cons_self c cs)
      have ih2 : splitOnChar sep cs = [cs] :=
        ih fun h => ha (List.mem_cons_of_mem _ h)
      simp [splitOnChar, hc, ih2]

theorem splitOnChar_append (sep : Char) (a rest : RStr) (ha : sep ∉ a) :
    splitOnChar sep (a ++ sep :: rest) = a :: splitOnChar sep rest := by
  induction a with
  | nil =>
      simp [splitOnChar]
  | cons c cs ih =>
      have hc : (c == sep) = false := by
        refine beq_eq_false_iff_ne.mpr ?_
        intro h
        exact ha (h ▸ List.mem_cons_self c cs)
      have ih2 := ih fun h => ha (List.mem_cons_of_mem _ h)
      have hstep : splitOnChar sep (c :: (cs ++ sep :: rest)) =
          match splitOnChar sep (cs ++ sep :: rest) with
          | [] => [[c]]
          | r :: rs => (c :: r) :: rs := by
        simp [splitOnChar, hc]
      rw [List.cons_append, hstep, ih2]

theorem splitAtFirst_append (sep : Char) (a b : RStr) (ha : sep ∉ a) :
    splitAtFirst sep (a ++ sep :: b) = some (a, b) := by
  induction a with
  | nil => simp [splitAtFirst]
  | cons c cs ih =>
      have hc : c ≠ sep := fun h => ha (h ▸ List.mem_cons_self c cs)
      have ih2 := ih fun h => ha (List.mem_cons_of_mem _ h)
      simp [splitAtFirst, hc, ih2]

theorem splitAtFirst_isSome (sep : Char) (s : RStr) :
    (splitAtFirst sep s).isSome = true ↔ sep ∈ s := by
  induction s with
  | nil => simp [splitAtFirst]
  | cons c cs ih =>
      by_cases hc : c = sep
      · subst hc; simp [splitAtFirst]
      · have hmap :
            (splitAtFirst sep (c :: cs)).isSome = (splitAtFirst sep cs).isSome := by
          simp only [splitAtFirst, if_neg hc]
          cases splitAtFirst sep cs <;> rfl
        rw [hmap, ih, List.mem_cons]
        constructor
        · exact Or.inr
        · rintro (h | h)
          · exact absurd h.symm hc
          · exact h

theorem natDisp_ne_nil (n : Nat) : natDisp n ≠ [] := by
  rw [natDisp]
  split
  · simp
  · simp

theorem digitCh_toNat (d : Nat) (h : d < 10) :
    (digitCh d).toNat = 48 + d := by
  interval_cases d <;> decide

theorem isDigitCh_digitCh (d : Nat) (h : d < 10) :
    isDigitCh (digitCh d) = true := by
  interval_cases d <;> decide

theorem digitCh_eq_zero_iff (d : Nat) (h : d < 10) :
    digitCh d = '0' ↔ d = 0 := by
  interval_cases d <;> simp <;> decide

theorem natDisp_digits (n : Nat) :
    ∀ c ∈ natDisp n, isDigitCh c = true := by
  induction n using Nat.strong_induction_on with
  | _ n ih =>
      rw [natDisp]
      split
      · next h =>
          intro c hc
          simp only [List.mem_singleton] at hc
          exact hc ▸ isDigitCh_digitCh n h
      · next h =>
          intro c hc
          rcases List.mem_append.mp hc with h1 | h2
          · exact ih (n / 10) (Nat.div_lt_self (by omega) (by omega)) c h1
          · simp only [List.mem_singleton] at h2
            exact h2 ▸ isDigitCh_digitCh (n % 10) (Nat.mod_lt _ (by omega))

theorem natDisp_head_ne_zero (n : Nat) (h : n ≠ 0) :
    (natDisp n).head? ≠ some '0' := by
  induction n using Nat.strong_induction_on with
  | _ n ih =>
      rw [natDisp]
      split
      · next hlt =>
          intro hz
          simp only [List.head?_cons, Option.some_inj] at hz
          exact h ((digitCh_eq_zero_iff n hlt).mp hz)
      · next hlt =>
          have hne := natDisp_ne_nil (n / 10)
          rw [List.head?_append_of_ne_nil _ hne]
          exact ih (n / 10) (Nat.div_lt_self (by omega) (by omega))
            (by omega)

theorem foldl_natDisp (n : Nat) :
    (natDisp n).foldl (fun acc c => acc * 10 + (c.toNat - 48)) 0 = n := by
  induction n using Nat.strong_induction_on with
  | _ n ih =>
      rw [natDisp]
      split
      · next h =>
          simp [List.foldl, digitCh_toNat n h]
      · next h =>
          rw [List.foldl_append]
          rw [ih (n / 10) (Nat.div_lt_self (by omega) (by omega))]
          simp only [List.foldl]
          rw [digitCh_toNat (n % 10) (Nat.mod_lt _ (by omega))]
          omega

theorem parseNatR_natDisp (n : Nat) : parseNatR (natDisp n) = some n := by
  unfold parseNatR
  rw [if_neg (by simpa [List.isEmpty_iff] using natDisp_ne_nil n)]
  rw [if_pos (by simpa [List.all_eq_true] using natDisp_digits n)]
  exact congrArg some (foldl_natDisp n)

theorem parseOctet_natDisp (k : Nat) (hk : k ≤ 255) :
    parseOctet (natDisp k) = some k := by
  have hcond : k ≤ 255 ∧
      ((natDisp k).head? = some '0' → (natDisp k).length = 1) := by
    refine ⟨hk, ?_⟩
    intro hz
    by_cases h0 : k = 0
    · subst h0
      rw [natDisp]
      simp
    · exact absurd hz (natDisp_head_ne_zero k h0)
  unfold parseOctet
  rw [parseNatR_natDisp]
  exact if_pos hcond

theorem not_mem_natDisp (c : Char) (n : Nat) (hc : isDigitCh c = false) :
    c ∉ natDisp n := by
  intro hmem
  have := natDisp_digits n c hmem
  rw [hc] at this
  cases this

theorem dispV4_chars (a : Ipv4) :
    ∀ c ∈ dispV4 a, isDigitCh c = true ∨ c = '.' := by
  intro c hc
  unfold dispV4 at hc
  rcases List.mem_append.mp hc with h | h
  · exact Or.inl (natDisp_digits _ c h)
  rcases List.mem_cons.mp h with h | h
  · exact Or.inr h
  rcases List.mem_append.mp h with h | h
  · exact Or.inl (natDisp_digits _ c h)
  rcases List.mem_cons.mp h with h | h
  · exact Or.inr h
  rcases List.mem_append.mp h with h | h
  · exact Or.inl (natDisp_digits _ c h)
  rcases List.mem_cons.mp h with h | h
  · exact Or.inr h
  · exact Or.inl (natDisp_digits _ c h)

theorem comma_not_mem_dispV4 (a : Ipv4) : ',' ∉ dispV4 a := by
  intro h
  rcases dispV4_chars a ',' h with h1 | h1
  · exact absurd h1 (by decide)
  · exact absurd h1 (by decide)

theorem slash_not_mem_dispV4 (a : Ipv4) : '/' ∉ dispV4 a := by
  intro h
  rcases dispV4_chars a '/' h with h1 | h1
  · exact absurd h1 (by decide)
  · exact absurd h1 (by decide)

theorem parseV4R_dispV4 (a : Ipv4) (h0 : a.o0 < 256) (h1 : a.o1 < 256)
    (h2 : a.o2 < 256) (h3 : a.o3 < 256) :
    parseV4R (dispV4 a) = some a := by
  have hd : ∀ n : Nat, '.' ∉ natDisp n := fun n =>
    not_mem_natDisp '.' n (by decide)
  unfold parseV4R dispV4
  rw [splitOnChar_append '.' _ _ (hd _),
    splitOnChar_append '.' _ _ (hd _),
    splitOnChar_append '.' _ _ (hd _),
    splitOnChar_no_sep '.' _ (hd _)]
  simp only [parseOctet_natDisp a.o0 (by omega),
    parseOctet_natDisp a.o1 (by omega), parseOctet_natDisp a.o2 (by omega),
    parseOctet_natDisp a.o3 (by omega)]

end Lightway

namespace Lightway

/-! ## Claim C1 -/

/-- C1: the claim states that for an IPv4 IP-CIDR rule with prefix
`0 ≤ p ≤ 32` the match test returns true iff the top `p` bits agree,
without panicking.  The code contradicts this: `ipv4_subnet_mask 24`
panics (array index 4 out of bounds, modelled as `none`), and for
prefix 9 the network `10.0.0.0/9` is reported as matching the address
`10.128.0.0` although their top 9 bits differ, because the partial mask
byte is written at index `n + 1` instead of `n`.  Prefixes above 32 do
compare all four octets, as the claim says. -/
theorem c1_ipv4_cidr_code_bug :
    ipv4SubnetMask 24 = none ∧
    isSubnetV4 ⟨10, 128, 0, 0⟩ ⟨10, 0, 0, 0⟩ 9 = some true ∧
    ipv4TopBitsEq 9 ⟨10, 128, 0, 0⟩ ⟨10, 0, 0, 0⟩ = false ∧
    ipv4SubnetMask 33 = some ⟨0xff, 0xff, 0xff, 0xff⟩ := by
  decide

/-! ## Claim C2 -/

/-- C2 counterexample: the claim says both connect paths return
`HostUnreachable` on a `Deny` decision, but `Dialer::try_connect` in
`src/rule/mod.rs` returns `Error::ProxyDenied`, which is a different
error. -/
theorem c2_counterexample :
    ruleDialerTryConnect (T := Unit) (O := Unit)
      (fun _ => (Decision.deny, none)) false
      (fun _ => .error .unknownError) (fun _ => .error .unknownError)
      (DstAddr.domain ['a'] 80) = .error .proxyDenied ∧
    NetError.proxyDenied ≠ NetError.hostUnreachable := by
  exact ⟨rfl, by decide⟩

/-- C2 (amended): when the policy decides `Deny`,
`ProxyConnect::call` fails with `HostUnreachable` and
`Dialer::try_connect` fails with `ProxyDenied`; in both cases the
result is the same for every dialer oracle, so neither the direct nor
the proxy dialer is invoked and no egress connection is attempted. -/
theorem c2_deny_short_circuits {S T O : Type}
    (forceProxy defautProxy : Bool) (p : RStr → Decision)
    (v6s : Ipv6 → Nat → RStr)
    (connect proxyConn : TargetAddr → Except IoErrorKind S)
    (policy : DstAddr → Decision × Option Args) (proxyOnDefault : Bool)
    (dialer : DstAddr → Except NetError O)
    (defaultDialer : DstAddr → Except NetError T)
    (target : TargetAddr) (dst : DstAddr)
    (hforce : forceProxy = false)
    (hp : p (targetToStr v6s target) = .deny)
    (hpol : (policy dst).1 = .deny) :
    proxyConnectCall forceProxy defautProxy (some p) v6s connect proxyConn
        target = .error .hostUnreachable ∧
    ruleDialerTryConnect policy proxyOnDefault dialer defaultDialer dst
        = .error .proxyDenied := by
  subst hforce
  constructor
  · simp [proxyConnectCall, hp]
  · simp [ruleDialerTryConnect, hpol]

/-- Witness for C2 at a concrete denied destination. -/
theorem c2_deny_short_circuits_witness :
    proxyConnectCall (S := Unit) false false (some fun _ => Decision.deny)
      (fun _ _ => []) (fun _ => .error .other) (fun _ => .error .other)
      (TargetAddr.domain ['b'] 80) = .error .hostUnreachable ∧
    ruleDialerTryConnect (T := Unit) (O := Unit)
      (fun _ => (Decision.deny, none)) false
      (fun _ => .error .unknownError) (fun _ => .error .unknownError)
      (DstAddr.domain ['b'] 80) = .error .proxyDenied :=
  c2_deny_short_circuits false false (fun _ => Decision.deny) (fun _ _ => [])
    (fun _ => .error .other) (fun _ => .error .other)
    (fun _ => (Decision.deny, none)) false (fun _ => .error .unknownError)
    (fun _ => .error .unknownError) (TargetAddr.domain ['b'] 80)
    (DstAddr.domain ['b'] 80) rfl rfl rfl

/-! ## Claim C4 -/

/-- C4: the claim states every codec path uses `0x00` for
username/password authentication success.  The proxy-socks codec does
(`AUTH_SUCCEED = 0x00`, `is_succeed` tests it, the server writes
`01 00` on success), but the netway codec is wrong: its `Status`
decoder treats `0x00` as `Failure(0)` and only `0x01` as `Ok`, and its
encoder writes `0x01` for `Ok` — so the netway server emits the byte
pair `01 01` both on success and on failure. -/
theorem c4_status_code_bug :
    nstatusTryFrom 0x00 = .failure 0x00 ∧
    nstatusTryFrom 0x01 = .ok ∧
    NStatus.code .ok = 0x01 ∧
    passwordReplyBytes .ok = [0x01, 0x01] ∧
    passwordReplyBytes (.failure 0x01) = [0x01, 0x01] ∧
    (PsStatus.new 0x00).isSucceed = true ∧
    (PsStatus.new 0x01).isSucceed = false ∧
    psAuthStatusBytes true = [0x01, 0x00] ∧
    psAuthStatusBytes false = [0x01, 0x01] := by
  decide

/-! ## Claim C6 -/

/-- C6 counterexample: the claim maps every remaining error to `0x01`
(GeneralSocksServerFailure), but a wrapped I/O error whose kind is not
`ConnectionRefused` — for example a timeout — is mapped by
`Rep::from_err` to `AddressTypeNotSupported` (`0x08`). -/
theorem c6_counterexample :
    repFromErr (.io .timedOut) = .addressTypeNotSupported ∧
    Rep.toU8 .addressTypeNotSupported = 0x08 ∧
    Rep.addressTypeNotSupported ≠ .generalSocksServerFailure := by
  decide

/-- C6 (amended): on a dial failure the netway SOCKS5 server sends a
`DstReply` whose REP byte is `Rep::from_err` of the error, with the
default all-zero bound address, and propagates the original error.
The mapping is: the claimed rows for `ConnectionRefused` (0x05),
`NetworkUnreachable` (0x03), `HostUnreachable` (0x04),
`CommandNotSupported` (0x07) and `TtlExpired` (0x06) hold;
`InvalidDstAddress` maps to 0x08; but a wrapped `Io` error maps to 0x05
only for kind `ConnectionRefused` and to 0x08 otherwise, `Succeed` maps
to 0x00, and only the remaining errors map to 0x01.  The proxy-socks
server distinguishes just three I/O kinds, sends everything else as
0x01, and its default bound address is `127.0.0.1:0`. -/
theorem c6_rep_mapping :
    (∀ e : NetError, serveDialFailure e =
      ([0x05, (repFromErr e).toU8, 0x00, 0x01, 0, 0, 0, 0, 0, 0], e)) ∧
    repFromErr .connectionRefused = .connectionRefused ∧
    repFromErr .networkUnreachable = .networkUnreachable ∧
    repFromErr .hostUnreachable = .hostUnreachable ∧
    repFromErr .commandNotSupported = .commandNotSupported ∧
    repFromErr .ttlExpired = .ttlExpired ∧
    repFromErr .succeed = .succeeded ∧
    (∀ m, repFromErr (.invalidDstAddress m) = .addressTypeNotSupported) ∧
    (∀ k, repFromErr (.io k) =
      if k = .connectionRefused then .connectionRefused
      else .addressTypeNotSupported) ∧
    (∀ e : NetError,
      (∀ k, e ≠ .io k) → (∀ m, e ≠ .invalidDstAddress m) →
      e ≠ .succeed → e ≠ .connectionRefused → e ≠ .networkUnreachable →
      e ≠ .hostUnreachable → e ≠ .commandNotSupported → e ≠ .ttlExpired →
      repFromErr e = .generalSocksServerFailure) ∧
    (∀ k : IoErrorKind, psServerDialFailure k =
      ([0x05, (psServerRepOf k).toU8, 0x00, 0x01, 127, 0, 0, 1, 0, 0], k)) ∧
    psServerRepOf .connectionRefused = .connectionRefused ∧
    psServerRepOf .hostUnreachable = .hostUnreachable ∧
    psServerRepOf .networkUnreachable = .networkUnreachable ∧
    (∀ k, k ≠ .connectionRefused → k ≠ .hostUnreachable →
      k ≠ .networkUnreachable →
      psServerRepOf k = .generalSocksServerFailure) := by
  refine ⟨?_, rfl, rfl, rfl, rfl, rfl, rfl, fun m => rfl, ?_, ?_, ?_, rfl,
    rfl, rfl, ?_⟩
  · intro e
    simp [serveDialFailure, dstReplyBytes, dstAddrBytes, DstAddr.defaultVal,
      u16Bytes]
  · intro k
    cases k <;> simp [repFromErr]
  · intro e h1 h2 h3 h4 h5 h6 h7 h8
    cases e with
    | io k => exact absurd rfl (h1 k)
    | invalidDstAddress m => exact absurd rfl (h2 m)
    | succeed => exact absurd rfl h3
    | connectionRefused => exact absurd rfl h4
    | networkUnreachable => exact absurd rfl h5
    | hostUnreachable => exact absurd rfl h6
    | commandNotSupported => exact absurd rfl h7
    | ttlExpired => exact absurd rfl h8
    | _ => rfl
  · intro k
    simp [psServerDialFailure, psReplyNewBytes, targetAddrBytes,
      TargetAddr.defaultVal, u16Bytes]
  · intro k h1 h2 h3
    cases k with
    | connectionRefused => exact absurd rfl h1
    | hostUnreachable => exact absurd rfl h2
    | networkUnreachable => exact absurd rfl h3
    | _ => rfl

/-- Witness for C6: the catch-all rows applied at concrete errors. -/
theorem c6_rep_mapping_witness :
    repFromErr .proxyDenied = .generalSocksServerFailure ∧
    psServerRepOf .timedOut = .generalSocksServerFailure :=
  ⟨c6_rep_mapping.2.2.2.2.2.2.2.2.2.1 .proxyDenied
      (fun _ h => NetError.noConfusion h) (fun _ h => NetError.noConfusion h)
      (fun h => NetError.noConfusion h) (fun h => NetError.noConfusion h)
      (fun h => NetError.noConfusion h) (fun h => NetError.noConfusion h)
      (fun h => NetError.noConfusion h) (fun h => NetError.noConfusion h),
    c6_rep_mapping.2.2.2.2.2.2.2.2.2.2.2.2.2.2 .timedOut
      (fun h => IoErrorKind.noConfusion h) (fun h => IoErrorKind.noConfusion h)
      (fun h => IoErrorKind.noConfusion h)⟩

/-! ## Claim C7 -/

/-- C7: the claim states the HTTP-CONNECT dialer consumes a body whose
size comes from `Content-Length` and succeeds exactly on status 200.
The success condition holds, but the body handling is a code bug: the
scan matches header names against `content-type`, so a `Content-Length`
header is ignored (the 5-byte body below stays unread on the stream)
and an ordinary `Content-Type: text/html` header aborts the dial with
`InvalidData` because its value is parsed as the body size. -/
theorem c7_content_length_code_bug :
    tunnelProxyConnect ['2', '0', '0']
        [(['C', 'o', 'n', 't', 'e', 'n', 't', '-', 'L', 'e', 'n', 'g', 't', 'h'],
          ['5'])] [72, 69, 76, 76, 79] =
      .ok (200, [72, 69, 76, 76, 79]) ∧
    tunnelProxyConnect ['2', '0', '0']
        [(['C', 'o', 'n', 't', 'e', 'n', 't', '-', 'T', 'y', 'p', 'e'],
          ['t', 'e', 'x', 't', '/', 'h', 't', 'm', 'l'])] [] =
      .error .invalidData ∧
    proxyDialerHandle (.ok (200, [])) = (false, .ok ()) ∧
    proxyDialerHandle (.ok (404, [])) = (true, .error .proxyServerUnreachable) ∧
    proxyDialerHandle (.error .invalidData) =
      (true, .error .proxyServerUnreachable) := by
  exact ⟨rfl, rfl, rfl, rfl, rfl⟩

/-! ## Claim C9 -/

/-- C9 counterexample: the claim predicts the reply bytes
`05 07 00 01 00 00 00 00 00 00` with the default destination
`0.0.0.0:0`, but the proxy-socks server the claim cites replies with
its `TargetAddr::default()`, which is `127.0.0.1:0`, so the bytes are
`05 07 00 01 7F 00 00 01 00 00`. -/
theorem c9_counterexample :
    (psHandle ⟨5, 3, some (TargetAddr.domain ['x'] 80)⟩).1 =
      [0x05, 0x07, 0x00, 0x01, 127, 0, 0, 1, 0, 0] ∧
    (psHandle ⟨5, 3, some (TargetAddr.domain ['x'] 80)⟩).1 ≠
      [0x05, 0x07, 0x00, 0x01, 0, 0, 0, 0, 0, 0] := by
  decide

/-- C9 (amended): on a BIND (2) or UDP-ASSOCIATE (3) command the
netway server emits `05 07 00 01 00 00 00 00 00 00` (its `DstAddr`
default is `0.0.0.0:0`) and fails with `CommandNotSupported`, while the
proxy-socks server emits `05 07 00 01 7F 00 00 01 00 00` (its
`TargetAddr` default is `127.0.0.1:0`) and fails with
`CommandNotSupported`. -/
theorem c9_unsupported_command (t : TargetAddr) (cmd : Nat)
    (hcmd : cmd = 2 ∨ cmd = 3) :
    psHandle ⟨5, cmd, some t⟩ =
      ([0x05, 0x07, 0x00, 0x01, 127, 0, 0, 1, 0, 0],
        .error .commandNotSupported) ∧
    serveUnsupportedCommand =
      ([0x05, 0x07, 0x00, 0x01, 0, 0, 0, 0, 0, 0],
        .commandNotSupported) := by
  constructor
  · rcases hcmd with h | h <;> subst h <;>
      simp [psHandle, PsRequest.isConnect, psReplyNewBytes, targetAddrBytes,
        TargetAddr.defaultVal, u16Bytes, Rep.toU8]
  · decide

/-- Witness for C9 at the UDP-ASSOCIATE command. -/
theorem c9_unsupported_command_witness :
    psHandle ⟨5, 3, some (TargetAddr.domain ['w'] 443)⟩ =
      ([0x05, 0x07, 0x00, 0x01, 127, 0, 0, 1, 0, 0],
        .error .commandNotSupported) ∧
    serveUnsupportedCommand =
      ([0x05, 0x07, 0x00, 0x01, 0, 0, 0, 0, 0, 0],
        .commandNotSupported) :=
  c9_unsupported_command (TargetAddr.domain ['w'] 443) 3 (Or.inr rfl)

end Lightway

namespace Lightway

/-! ## Claim C3 -/

theorem Decision.isDefault_iff (d : Decision) :
    d.isDefault = true ↔ d = .dfault := by
  cases d <;> simp [Decision.isDefault]

theorem c3aux_vec (rm : RStr → RStr → Bool)
    (pv4 : RStr → Option (Ipv4 × Nat)) (pv6 : RStr → Option (Ipv6 × Nat))
    (rules : List Rule) (dst : RStr)
    (h : ∀ r ∈ rules, (r.pattern.isMatch rm pv4 pv6 dst).isSome = true) :
    enforceVec (ruleEnforce rm pv4 pv6) rules dst =
      some (match rules.find? (fun r =>
          (r.pattern.isMatch rm pv4 pv6 dst == some true) &&
          !r.decision.isDefault) with
        | some r => r.decision
        | none => .dfault) := by
  induction rules with
  | nil => simp [enforceVec, List.find?]
  | cons r rs ih =>
      obtain ⟨b, hb⟩ :=
        Option.isSome_iff_exists.mp (h r (List.mem_cons_self r rs))
      have ih2 := ih fun r' hr' => h r' (List.mem_cons_of_mem r hr')
      cases b with
      | false =>
          rw [List.find?_cons_of_neg _ (by simp [hb])]
          simp only [enforceVec, ruleEnforce, hb, Option.map_some',
            Bool.false_eq_true, if_false]
          simpa [Decision.isDefault] using ih2
      | true =>
          by_cases hd : r.decision.isDefault = true
          · have hdd := (Decision.isDefault_iff r.decision).mp hd
            rw [List.find?_cons_of_neg _ (by simp [hb, hd])]
            simp only [enforceVec, ruleEnforce, hb, Option.map_some',
              if_true]
            rw [hdd]
            simpa [Decision.isDefault] using ih2
          · rw [List.find?_cons_of_pos _ (by simp [hb, hd])]
            simp only [enforceVec, ruleEnforce, hb, Option.map_some',
              if_true]
            simp [hd]

theorem c3aux_triple (rm : RStr → RStr → Bool)
    (ts : List (SrcRule × Decision × Option Args)) (dst : DstAddr)
    (h : ∀ t ∈ ts, (SrcRule.isMatch rm t.1 dst).isSome = true) :
    enforceVecA (tripleEnforce rm) ts dst =
      some (match ts.find? (fun t =>
          (SrcRule.isMatch rm t.1 dst == some true) && !t.2.1.isDefault) with
        | some t => (t.2.1, t.2.2)
        | none => (.dfault, none)) := by
  induction ts with
  | nil => simp [enforceVecA, List.find?]
  | cons t rest ih =>
      obtain ⟨b, hb⟩ :=
        Option.isSome_iff_exists.mp (h t (List.mem_cons_self t rest))
      have ih2 := ih fun t' ht' => h t' (List.mem_cons_of_mem t ht')
      cases b with
      | false =>
          rw [List.find?_cons_of_neg _ (by simp [hb])]
          simp only [enforceVecA, tripleEnforce, hb, Option.map_some',
            Bool.false_eq_true, if_false]
          simpa [Decision.isDefault] using ih2
      | true =>
          by_cases hd : t.2.1.isDefault = true
          · have hdd := (Decision.isDefault_iff t.2.1).mp hd
            rw [List.find?_cons_of_neg _ (by simp [hb, hd])]
            simp only [enforceVecA, tripleEnforce, hb, Option.map_some',
              if_true]
            rw [hdd]
            simpa [Decision.isDefault] using ih2
          · rw [List.find?_cons_of_pos _ (by simp [hb, hd])]
            simp only [enforceVecA, tripleEnforce, hb, Option.map_some',
              if_true]
            simp [hd]

/-- C3: on both rule engines, provided no rule panics during matching,
`enforce` returns exactly the decision (and, on the
`src/rule` engine, the args) of the first rule in declaration order
whose pattern matches the destination and whose decision is not
`Default`, and returns `Default` (with no args) when there is no such
rule. -/
theorem c3_enforce_first_match :
    (∀ (rm : RStr → RStr → Bool) (pv4 : RStr → Option (Ipv4 × Nat))
        (pv6 : RStr → Option (Ipv6 × Nat)) (rules : List Rule) (dst : RStr),
      (∀ r ∈ rules, (r.pattern.isMatch rm pv4 pv6 dst).isSome = true) →
      enforceVec (ruleEnforce rm pv4 pv6) rules dst =
        some (match rules.find? (fun r =>
            (r.pattern.isMatch rm pv4 pv6 dst == some true) &&
            !r.decision.isDefault) with
          | some r => r.decision
          | none => .dfault)) ∧
    (∀ (rm : RStr → RStr → Bool)
        (ts : List (SrcRule × Decision × Option Args)) (dst : DstAddr),
      (∀ t ∈ ts, (SrcRule.isMatch rm t.1 dst).isSome = true) →
      enforceVecA (tripleEnforce rm) ts dst =
        some (match ts.find? (fun t =>
            (SrcRule.isMatch rm t.1 dst == some true) &&
            !t.2.1.isDefault) with
          | some t => (t.2.1, t.2.2)
          | none => (.dfault, none))) :=
  ⟨c3aux_vec, c3aux_triple⟩

/-- Witness for C3: a deny rule matched in first position, and a
non-matching list falling through to `Default`. -/
theorem c3_enforce_first_match_witness :
    enforceVec (ruleEnforce (fun _ _ => false) (fun _ => none)
        (fun _ => none)) [⟨.exact ['a'], .deny⟩] ['a', 'x'] =
      some .deny ∧
    enforceVecA (tripleEnforce fun _ _ => false)
      [(.domainExact ['a'], .proxy false, none)]
      (DstAddr.domain ['b'] 80) = some (.dfault, none) := by
  constructor
  · rw [c3_enforce_first_match.1 (fun _ _ => false) (fun _ => none)
      (fun _ => none) [⟨.exact ['a'], .deny⟩] ['a', 'x'] (by decide)]
    decide
  · rw [c3_enforce_first_match.2 (fun _ _ => false)
      [(.domainExact ['a'], .proxy false, none)] (DstAddr.domain ['b'] 80)
      (by decide)]
    decide

/-! ## Claim C5 -/

/-- C5 counterexample: the claim states a DOMAIN rule matches exactly
the domain-form destinations whose domain string equals the pattern.
On the proxy-rules engine the destination is its display string and
`Pattern::Exact` uses `starts_with`, so the rule `DOMAIN,example.com`
matches the destination `example.communist:80` whose domain is not
`example.com`. -/
theorem c5_counterexample :
    Pattern.isMatch (fun _ _ => false) (fun _ => none) (fun _ => none)
      (.exact "example.com".toList)
      (targetToStr (fun _ _ => [])
        (TargetAddr.domain "example.communist".toList 80)) = some true ∧
    "example.communist".toList ≠ "example.com".toList := by
  constructor
  · decide
  · decide

/-- C5 (amended): on the `DstAddr` engine of `src/rule/rules.rs` the
claim holds: `DomainExact` matches a destination iff it is domain-form
with that exact domain, a socket destination never matches any domain
rule, and a domain-form destination never matches any IP rule.  On the
string engine of `proxy-rules` the destination is the `host:port`
display string and `Pattern::Exact` matches iff that string starts
with the pattern, which is weaker than equality of the domain. -/
theorem c5_domain_matching :
    (∀ (rm : RStr → RStr → Bool) (s dom : RStr) (p : Nat),
      SrcRule.isMatch rm (.domainExact s) (.domain dom p) = some true ↔
        dom = s) ∧
    (∀ (rm : RStr → RStr → Bool) (s : RStr) (sa : SockAddr),
      SrcRule.isMatch rm (.domainExact s) (.socket sa) = some false) ∧
    (∀ (rm : RStr → RStr → Bool) (a : IpAddrE) (dom : RStr) (p : Nat),
      SrcRule.isMatch rm (.ipExact a) (.domain dom p) = some false) ∧
    (∀ (rm : RStr → RStr → Bool) (a : IpAddrE) (m : Nat) (dom : RStr)
        (p : Nat),
      SrcRule.isMatch rm (.ipCIDR a m) (.domain dom p) = some false) ∧
    (∀ (rm : RStr → RStr → Bool) (s : RStr) (sa : SockAddr),
      SrcRule.isMatch rm (.domainSuffix s) (.socket sa) = some false) ∧
    (∀ (rm : RStr → RStr → Bool) (s : RStr) (sa : SockAddr),
      SrcRule.isMatch rm (.domainRegex s) (.socket sa) = some false) ∧
    (∀ (rm : RStr → RStr → Bool) (s : RStr) (sa : SockAddr),
      SrcRule.isMatch rm (.domainKeyword s) (.socket sa) = some false) ∧
    (∀ (rm : RStr → RStr → Bool) (pv4 : RStr → Option (Ipv4 × Nat))
        (pv6 : RStr → Option (Ipv6 × Nat)) (s dst : RStr),
      Pattern.isMatch rm pv4 pv6 (.exact s) dst = some true ↔
        rstrStartsWith dst s = true) := by
  refine ⟨?_, fun rm s sa => rfl, fun rm a dom p => rfl,
    fun rm a m dom p => rfl, fun rm s sa => rfl, fun rm s sa => rfl,
    fun rm s sa => rfl, ?_⟩
  · intro rm s dom p
    simp [SrcRule.isMatch]
  · intro rm pv4 pv6 s dst
    simp [Pattern.isMatch]

/-- Witness for C5: the exact-match law applied at a concrete
destination. -/
theorem c5_domain_matching_witness :
    SrcRule.isMatch (fun _ _ => false) (.domainExact ['a'])
      (.domain ['a'] 1) = some true :=
  (c5_domain_matching.1 (fun _ _ => false) ['a'] ['a'] 1).mpr rfl

end Lightway

namespace Lightway

/-! ## Claim C10 -/

theorem linesOf_readLine (s : List Char) (h : s ≠ []) :
    linesOf s = (readLineS s).1 :: linesOf (readLineS s).2 := by
  induction s with
  | nil => exact absurd rfl h
  | cons c cs ih =>
      by_cases hc : c = '\n'
      · subst hc
        simp [linesOf, readLineS]
      · by_cases hcs : cs = []
        · subst hcs
          simp [linesOf, readLineS, hc]
        · simp only [linesOf, readLineS, if_neg hc]
          rw [ih hcs]

theorem collectLines_eq (s : List Char) :
    collectLines s = (linesOf s).takeWhile fun t => 3 ≤ t.length := by
  have H : ∀ (n : Nat) (s : List Char), s.length ≤ n →
      collectLines s = (linesOf s).takeWhile fun t => 3 ≤ t.length := by
    intro n
    induction n with
    | zero =>
        intro s hs
        have hnil : s = [] := List.eq_nil_of_length_eq_zero (Nat.le_zero.mp hs)
        subst hnil
        rw [collectLines]
        simp [readLineS, linesOf]
    | succ n ih =>
        intro s hs
        by_cases hnil : s = []
        · subst hnil
          rw [collectLines]
          simp [readLineS, linesOf]
        · rw [collectLines, linesOf_readLine s hnil]
          by_cases hlen : (readLineS s).1.length < 3
          · rw [dif_pos hlen, List.takeWhile_cons]
            rw [if_neg (by simp; omega)]
          · rw [dif_neg hlen]
            have hne : (readLineS s).1 ≠ [] := by
              intro hz
              rw [hz] at hlen
              simp at hlen
            have hrest : (readLineS s).2.length ≤ n := by
              have := readLineS_rest_lt s hne
              omega
            rw [List.takeWhile_cons, if_pos (by simp; omega), ih _ hrest]
  exact H s.length s le_rfl

theorem parseHeaderLine_isSome (l : RStr) :
    (parseHeaderLine l).isSome = true ↔ ':' ∈ l.dropLast := by
  unfold parseHeaderLine
  rw [← splitAtFirst_isSome ':' l.dropLast]
  cases splitAtFirst ':' l.dropLast <;> simp

theorem mapHeaders_isSome (ls : List RStr) :
    (mapHeaders ls).isSome = true ↔ ∀ l ∈ ls, ':' ∈ l.dropLast := by
  induction ls with
  | nil => simp [mapHeaders]
  | cons l rest ih =>
      rw [mapHeaders]
      cases hp : parseHeaderLine l with
      | none =>
          have hl : ¬ (':' ∈ l.dropLast) := by
            rw [← parseHeaderLine_isSome, hp]
            simp
          simp [hl]
      | some h =>
          have hl : ':' ∈ l.dropLast := by
            rw [← parseHeaderLine_isSome, hp]
            simp
          cases hm : mapHeaders rest with
          | none =>
              rw [hm] at ih
              simp only [Option.isSome_none, Bool.false_eq_true,
                false_iff] at ih ⊢
              intro hall
              exact ih fun t ht => hall t (List.mem_cons_of_mem l ht)
          | some hs =>
              rw [hm] at ih
              simp only [Option.isSome_some, true_iff] at ih
              simp only [Option.isSome_some, true_iff]
              intro t ht
              rcases List.mem_cons.mp ht with h1 | h1
              · exact h1 ▸ hl
              · exact ih t h1

/-- C10 counterexample: the claim says each returned header is the
header line split at its first colon.  For an input whose final header
line is not newline-terminated, `read_headers` drops the last real
character of that line before splitting: on `A: x\r\nB:2` it returns
the header pair of the name B with an empty value, not the claimed
pair of B with the value 2. -/
theorem c10_counterexample :
    readHeadersS ("A: x\r\nB:2".toList) =
      some [("A".toList, "x".toList), ("B".toList, [])] ∧
    specHeaderOfLine ("B:2".toList) = some ("B".toList, "2".toList) ∧
    (([] : RStr) ≠ "2".toList) := by
  refine ⟨?_, by decide, by decide⟩
  rw [readHeadersS, collectLines_eq]
  decide

/-- C10 (amended): `read_headers` consumes exactly the `read_line`
results while their raw size is at least 3 (the blank `\r\n` terminator
or end of input stops it) and maps each collected line to a header by
dropping the line's final character, splitting at the first colon and
trimming both sides; it returns a header list iff every collected
line's content (the line minus its final character) contains a colon,
and otherwise it panics with an index out of bounds.  For
newline-terminated lines the dropped character is the newline, so the
result is the claimed split of the header line; for an EOF-unterminated
final line the last real character is lost. -/
theorem c10_read_headers :
    (∀ s : List Char, readHeadersS s =
      mapHeaders ((linesOf s).takeWhile fun t => 3 ≤ t.length)) ∧
    (∀ s : List Char, (readHeadersS s).isSome = true ↔
      ∀ l ∈ (linesOf s).takeWhile (fun t => 3 ≤ t.length),
        ':' ∈ l.dropLast) ∧
    (∀ (l pre post : RStr), l.dropLast = pre ++ ':' :: post → ':' ∉ pre →
      parseHeaderLine l = some (rstrTrim pre, rstrTrim post)) := by
  refine ⟨?_, ?_, ?_⟩
  · intro s
    rw [readHeadersS, collectLines_eq]
  · intro s
    rw [readHeadersS, collectLines_eq, mapHeaders_isSome]
  · intro l pre post hsplit hpre
    unfold parseHeaderLine
    rw [hsplit, splitAtFirst_append ':' pre post hpre]
    rfl

/-- Witness for C10: a CRLF-terminated header line parses to the
claimed trimmed name/value pair. -/
theorem c10_read_headers_witness :
    parseHeaderLine ("N: v\r\n".toList) = some ("N".toList, "v".toList) :=
  (c10_read_headers.2.2 ("N: v\r\n".toList) ("N".toList) (" v\r".toList)
    (by decide) (by decide)).trans (by decide)

end Lightway

namespace Lightway

/-! ## Claim C8 -/

theorem decision_split_parse (dec : Decision) :
    ∃ d args, splitOnChar ',' (decisionToStr dec) = d :: args ∧
      parseDecisionParts d args = some dec := by
  cases dec with
  | direct =>
      exact ⟨['D', 'I', 'R', 'E', 'C', 'T'], [], by decide, by decide⟩
  | proxy b =>
      cases b with
      | false => exact ⟨['P', 'R', 'O', 'X', 'Y'], [], by decide, by decide⟩
      | true =>
          exact ⟨['P', 'R', 'O', 'X', 'Y'], [argFORCEREMOTEDNS], by decide,
            by decide⟩
  | dfault =>
      exact ⟨['D', 'E', 'F', 'A', 'U', 'L', 'T'], [], by decide, by decide⟩
  | deny => exact ⟨['D', 'E', 'N', 'Y'], [], by decide, by decide⟩

theorem comma_not_mem_cidr4 (a : Ipv4) (m : Nat) :
    ',' ∉ (dispV4 a ++ '/' :: natDisp m) := by
  intro h
  rcases List.mem_append.mp h with h | h
  · exact comma_not_mem_dispV4 a h
  rcases List.mem_cons.mp h with h | h
  · exact absurd h (by decide)
  · exact not_mem_natDisp ',' m (by decide) h

/-- C8 (amended): for every rule whose pattern is not a v6 CIDR —
domain patterns with comma-free strings, regexes that recompile to
their own source, IPv4 addresses with byte octets, and IPv6 exact
addresses whose external display round-trips through the external
parser — parsing the display form of the rule yields the same rule
back (regexes compared by their source).  A v6 CIDR rule is excluded:
it displays with the tag `IP-CIDR6`, which `from_str` does not
accept. -/
theorem c8_rule_roundtrip (pv6 : RStr → Option Ipv6) (v6s : Ipv6 → RStr)
    (rnew : RStr → Option RStr) (r : Rule)
    (hwf : RuleWf pv6 v6s rnew r) :
    ruleFromStr pv6 rnew (ruleToStr v6s r) = some r := by
  obtain ⟨pat, dec⟩ := r
  obtain ⟨d, args, hd, hparse⟩ := decision_split_parse dec
  cases pat with
  | exact s =>
      have hcomma : ',' ∉ s := hwf
      unfold ruleFromStr ruleToStr patternToStr
      rw [List.append_assoc, List.cons_append,
        splitOnChar_append ',' tagDOMAIN _ (by decide),
        splitOnChar_append ',' s _ hcomma, hd]
      have e1 : rstrEqIgnoreAsciiCase tagDOMAIN tagDOMAIN = true := by decide
      simp [parsePatternTagged, e1, hparse]
  | sfx s =>
      have hcomma : ',' ∉ s := hwf
      unfold ruleFromStr ruleToStr patternToStr
      rw [List.append_assoc, List.cons_append,
        splitOnChar_append ',' tagDOMAINSUFFIX _ (by decide),
        splitOnChar_append ',' s _ hcomma, hd]
      have e1 : rstrEqIgnoreAsciiCase tagDOMAINSUFFIX tagDOMAIN = false := by
        decide
      have e2 : rstrEqIgnoreAsciiCase tagDOMAINSUFFIX tagDOMAINSUFFIX =
          true := by decide
      simp [parsePatternTagged, e1, e2, hparse]
  | regex s =>
      obtain ⟨hcomma, hre⟩ := (hwf : ',' ∉ s ∧ rnew s = some s)
      unfold ruleFromStr ruleToStr patternToStr
      rw [List.append_assoc, List.cons_append,
        splitOnChar_append ',' tagDOMAINREGEX _ (by decide),
        splitOnChar_append ',' s _ hcomma, hd]
      have e1 : rstrEqIgnoreAsciiCase tagDOMAINREGEX tagDOMAIN = false := by
        decide
      have e2 : rstrEqIgnoreAsciiCase tagDOMAINREGEX tagDOMAINSUFFIX =
          false := by decide
      have e3 : rstrEqIgnoreAsciiCase tagDOMAINREGEX tagDOMAINREGEX =
          true := by decide
      simp [parsePatternTagged, e1, e2, e3, hre, hparse]
  | keyword s =>
      have hcomma : ',' ∉ s := hwf
      unfold ruleFromStr ruleToStr patternToStr
      rw [List.append_assoc, List.cons_append,
        splitOnChar_append ',' tagDOMAINKEYWORD _ (by decide),
        splitOnChar_append ',' s _ hcomma, hd]
      have e1 : rstrEqIgnoreAsciiCase tagDOMAINKEYWORD tagDOMAIN = false := by
        decide
      have e2 : rstrEqIgnoreAsciiCase tagDOMAINKEYWORD tagDOMAINSUFFIX =
          false := by decide
      have e3 : rstrEqIgnoreAsciiCase tagDOMAINKEYWORD tagDOMAINREGEX =
          false := by decide
      have e4 : rstrEqIgnoreAsciiCase tagDOMAINKEYWORD tagDOMAINKEYWORD =
          true := by decide
      simp [parsePatternTagged, e1, e2, e3, e4, hparse]
  | ipExact a =>
      cases a with
      | v4 a4 =>
          obtain ⟨h0, h1, h2, h3⟩ :=
            (hwf : a4.o0 < 256 ∧ a4.o1 < 256 ∧ a4.o2 < 256 ∧ a4.o3 < 256)
          unfold ruleFromStr ruleToStr patternToStr
          rw [List.append_assoc, List.cons_append,
            splitOnChar_append ',' tagIPV4 _ (by decide),
            splitOnChar_append ',' (dispV4 a4) _ (comma_not_mem_dispV4 a4),
            hd]
          have e1 : rstrEqIgnoreAsciiCase tagIPV4 tagDOMAIN = false := by
            decide
          have e2 : rstrEqIgnoreAsciiCase tagIPV4 tagDOMAINSUFFIX = false :=
            by decide
          have e3 : rstrEqIgnoreAsciiCase tagIPV4 tagDOMAINREGEX = false :=
            by decide
          have e4 : rstrEqIgnoreAsciiCase tagIPV4 tagDOMAINKEYWORD = false :=
            by decide
          have e5 : rstrEqIgnoreAsciiCase tagIPV4 tagIPV4 = true := by decide
          simp [parsePatternTagged, e1, e2, e3, e4, e5, parseIpAddrR,
            parseV4R_dispV4 a4 h0 h1 h2 h3, hparse]
      | v6 a6 =>
          obtain ⟨hcomma, hv4, hv6⟩ :=
            (hwf : ',' ∉ v6s a6 ∧ parseV4R (v6s a6) = none ∧
              pv6 (v6s a6) = some a6)
          unfold ruleFromStr ruleToStr patternToStr
          rw [List.append_assoc, List.cons_append,
            splitOnChar_append ',' tagIPV6 _ (by decide),
            splitOnChar_append ',' (v6s a6) _ hcomma, hd]
          have e1 : rstrEqIgnoreAsciiCase tagIPV6 tagDOMAIN = false := by
            decide
          have e2 : rstrEqIgnoreAsciiCase tagIPV6 tagDOMAINSUFFIX = false :=
            by decide
          have e3 : rstrEqIgnoreAsciiCase tagIPV6 tagDOMAINREGEX = false :=
            by decide
          have e4 : rstrEqIgnoreAsciiCase tagIPV6 tagDOMAINKEYWORD = false :=
            by decide
          have e5 : rstrEqIgnoreAsciiCase tagIPV6 tagIPV4 = false := by decide
          have e6 : rstrEqIgnoreAsciiCase tagIPV6 tagIPV6 = true := by decide
          simp [parsePatternTagged, e1, e2, e3, e4, e5, e6, parseIpAddrR,
            hv4, hv6, hparse]
  | ipCIDR a m =>
      cases a with
      | v4 a4 =>
          obtain ⟨h0, h1, h2, h3⟩ :=
            (hwf : a4.o0 < 256 ∧ a4.o1 < 256 ∧ a4.o2 < 256 ∧ a4.o3 < 256)
          unfold ruleFromStr ruleToStr patternToStr
          rw [List.append_assoc, List.cons_append,
            splitOnChar_append ',' tagIPCIDR _ (by decide),
            splitOnChar_append ',' _ _ (comma_not_mem_cidr4 a4 m), hd]
          have e1 : rstrEqIgnoreAsciiCase tagIPCIDR tagDOMAIN = false := by
            decide
          have e2 : rstrEqIgnoreAsciiCase tagIPCIDR tagDOMAINSUFFIX = false :=
            by decide
          have e3 : rstrEqIgnoreAsciiCase tagIPCIDR tagDOMAINREGEX = false :=
            by decide
          have e4 : rstrEqIgnoreAsciiCase tagIPCIDR tagDOMAINKEYWORD =
              false := by decide
          have e5 : rstrEqIgnoreAsciiCase tagIPCIDR tagIPV4 = false := by
            decide
          have e6 : rstrEqIgnoreAsciiCase tagIPCIDR tagIPV6 = false := by
            decide
          have e7 : rstrEqIgnoreAsciiCase tagIPCIDR tagIPCIDR = true := by
            decide
          simp [parsePatternTagged, e1, e2, e3, e4, e5, e6, e7,
            splitAtFirst_append '/' (dispV4 a4) (natDisp m)
              (slash_not_mem_dispV4 a4),
            parseIpAddrR, parseV4R_dispV4 a4 h0 h1 h2 h3,
            parseNatR_natDisp, hparse]
      | v6 a6 => exact absurd hwf (by simp [RuleWf])

/-- Witness for C8 at a concrete domain rule. -/
theorem c8_rule_roundtrip_witness :
    ruleFromStr (fun _ => none) (fun _ => none)
      (ruleToStr (fun _ => []) ⟨.exact ['a'], .deny⟩) =
      some ⟨.exact ['a'], .deny⟩ :=
  c8_rule_roundtrip (fun _ => none) (fun _ => []) (fun _ => none)
    ⟨.exact ['a'], .deny⟩ (by show ',' ∉ (['a'] : RStr); decide)

/-- C8 counterexample: the claim includes the `IP-CIDR6` tag, but
`from_str` has no arm for it, so the display of a v6 CIDR rule does
not parse back: `IP-CIDR6,::/8,DIRECT` fails with `unknown pattern
tag`. -/
theorem c8_counterexample :
    ruleFromStr (fun _ => none) (fun _ => none)
      (ruleToStr (fun _ => [':', ':'])
        ⟨.ipCIDR (.v6 ⟨[]⟩) 8, .direct⟩) = none := by
  have h8 : natDisp 8 = ['8'] := by
    rw [natDisp]
    decide
  simp only [ruleToStr, patternToStr, h8]
  decide

end Lightway
